import Mathlib

set_option maxRecDepth 8192

/-!
Verification of the document-intelligence pipeline in `main.py` / `utils/utils.py`
(Adobe Hackathon Challenge 1B).

The Python code is shallowly embedded: Python `str` values are Lean `String`s,
Python floats (relevance scores) are modelled as `ℚ`, and the section
dictionaries of `main.py` become the `Sec` structure below.  Operations that
Python delegates to external collaborators (NLTK `sent_tokenize`, the
stemmer/stopword-based `preprocess_text`, the scikit-learn TF-IDF scorer) are
taken as explicit function parameters of the embedded definitions, matching the
spec's designation of them as external collaborators.
-/

/-! ## Python string primitives

These model the Python `str` operations used by `main.py`, working over the
underlying character list (`String.data`), so that Python `len` = number of
code points = `List.length`. -/

/-- Python whitespace for `str.strip`, `str.split()` and the regex class
`\s` (ASCII fragment: space, tab, newline, carriage return, vertical tab,
form feed). -/
def pyIsSpace (c : Char) : Bool :=
  c == ' ' || c == '\t' || c == '\n' || c == '\r' ||
  c == Char.ofNat 11 || c == Char.ofNat 12

/-- Python `len(s)`: number of code points. -/
def pyLen (s : String) : Nat := s.data.length

/-- Python `s.lower()` (ASCII fragment). -/
def pyLower (s : String) : String := String.mk (s.data.map Char.toLower)

/-- Python `s.strip()`: remove leading and trailing whitespace. -/
def pyStrip (s : String) : String :=
  String.mk (((s.data.dropWhile pyIsSpace).reverse.dropWhile pyIsSpace).reverse)

/-- Python `s[:n]`: first `n` code points. -/
def pyTake (n : Nat) (s : String) : String := String.mk (s.data.take n)

/-- Helper for Python's substring test `needle in hay` on char lists. -/
def listIsSub (needle : List Char) : List Char → Bool
  | [] => needle.isEmpty
  | c :: rest => needle.isPrefixOf (c :: rest) || listIsSub needle rest

/-- Python `needle in hay` (substring containment). -/
def isSub (needle hay : String) : Bool := listIsSub needle.data hay.data

/-- Python `s.endswith(t)`. -/
def pyEndsWith (s t : String) : Bool := t.data.isSuffixOf s.data

/-- Python `s.startswith(t)`. -/
def pyStartsWith (s t : String) : Bool := t.data.isPrefixOf s.data

/-- Python `s.split()` on char lists: split on whitespace runs, discarding
empty parts.  Structural recursion on a fuel counter (each step consumes at
least one character, so a fuel of `length + 1` never runs out); this keeps
the definition kernel-reducible. -/
def pySplitWsChars : Nat → List Char → List String
  | _, [] => []
  | 0, _ :: _ => []
  | fuel + 1, c :: rest =>
    if pyIsSpace c then pySplitWsChars fuel rest
    else String.mk (c :: rest.takeWhile (fun d => !pyIsSpace d)) ::
      pySplitWsChars fuel (rest.dropWhile (fun d => !pyIsSpace d))

/-- Python `s.split()` (no separator argument). -/
def pySplitWs (s : String) : List String :=
  pySplitWsChars (s.data.length + 1) s.data

/-- Splitting a char list at newlines, keeping empty parts
(Python `str.split('\n')` semantics). -/
def splitNlChars : List Char → List (List Char)
  | [] => [[]]
  | c :: rest =>
    if c == '\n' then [] :: splitNlChars rest
    else
      match splitNlChars rest with
      | [] => [[c]]
      | h :: t => (c :: h) :: t

/-- Python `s.split('\n')`. -/
def pySplitNl (s : String) : List String := (splitNlChars s.data).map String.mk

/-! ## Data model

`main.py` passes sections around as dictionaries.  `Sec` collects every key
those dictionaries can carry; keys that are only present on some sections
(`relevance_score`, `category`, `keyword_count`) are `Option`-valued, with
`none` meaning "key absent". -/

/-- One page of an extracted document (`pages_content` entries built in
`extract_text_from_pdf`). -/
structure Page where
  page_number : Nat
  text : String
deriving DecidableEq, Repr

/-- A section dictionary as built throughout `main.py`. -/
structure Sec where
  document : String
  page_number : Nat
  section_title : String
  content : String
  word_count : Nat
  relevance_score : Option ℚ := none
  category : Option String := none
  keyword_count : Option Nat := none
deriving DecidableEq, Repr

/-- A subsection dictionary as built by `extract_subsections`. -/
structure Subsec where
  document : String
  page_number : Nat
  section_title : String
  refined_text : String
  relevance_score : Option ℚ
deriving DecidableEq, Repr

/-- An entry of the `extracted_sections` list assembled in
`process_documents`. -/
structure ExtractedSectionEntry where
  document : String
  section_title : String
  importance_rank : Nat
  page_number : Nat
deriving DecidableEq, Repr

/-! ## Blank-line splitting: `re.split(r'\n\s*\n', text)`

`extract_sections_by_content` and `extract_travel_specific_sections` split
the document text into paragraph chunks with this regex.  A match is a
newline followed by a greedy whitespace run that is backtracked so that the
match ends at the last newline inside that run. -/

/-- Number of characters of `ws` up to and including its last newline
(meaningful when `'\n' ∈ ws`). -/
def lastNlSplit (ws : List Char) : Nat :=
  ws.length - (ws.reverse.takeWhile (fun c => c != '\n')).length

/-- If the char list starts with a match of `\n\s*\n`, return the length of
the (leftmost, greedy-with-backtracking) match; otherwise `none`. -/
def blankSepLen : List Char → Option Nat
  | '\n' :: rest =>
    if '\n' ∈ rest.takeWhile pyIsSpace then
      some (1 + lastNlSplit (rest.takeWhile pyIsSpace))
    else none
  | _ => none

/-- Scanner for `re.split(r'\n\s*\n', ·)`: `cur` is the reversed current
chunk, `l` the remaining input.  Structural recursion on a fuel counter
(every separator match consumes at least one character — `blankSepLen` only
returns values of the form `1 + k` — so a fuel of `length + 1` never runs
out); this keeps the definition kernel-reducible. -/
def splitBlankGo : Nat → List Char → List Char → List String
  | _, cur, [] => [String.mk cur.reverse]
  | 0, cur, l => [String.mk (cur.reverse ++ l)]
  | fuel + 1, cur, c :: rest =>
    match blankSepLen (c :: rest) with
    | some n => String.mk cur.reverse :: splitBlankGo fuel [] ((c :: rest).drop n)
    | none => splitBlankGo fuel (c :: cur) rest

/-- Python `re.split(r'\n\s*\n', text)`. -/
def reSplitBlank (text : String) : List String :=
  splitBlankGo (text.data.length + 1) [] text.data

/-! ## Secondary keyword-category pass (`extract_travel_specific_sections`) -/

/-- The `travel_keywords` table of `extract_travel_specific_sections`
(Python dict iterated in insertion order). -/
def travel_keywords : List (String × List String) :=
  [("activities", ["activities", "things to do", "attractions", "sightseeing"]),
   ("accommodation", ["hotels", "accommodation", "lodging", "staying"]),
   ("dining", ["restaurants", "dining", "food", "cuisine", "eating"]),
   ("transportation", ["transport", "getting around", "travel", "flights"]),
   ("budget", ["budget", "cost", "price", "affordable", "cheap"]),
   ("groups", ["group", "friends", "party", "together"]),
   ("coastal", ["beach", "coast", "sea", "water sports", "swimming"]),
   ("nightlife", ["nightlife", "bars", "clubs", "evening", "night"])]

/-- The `category_titles` table of `extract_chunk_title`. -/
def category_titles : List (String × String) :=
  [("activities", "Activities and Attractions"),
   ("accommodation", "Hotels and Accommodation"),
   ("dining", "Restaurants and Dining"),
   ("transportation", "Transportation Options"),
   ("budget", "Budget Information"),
   ("groups", "Group Travel Tips"),
   ("coastal", "Coastal Activities"),
   ("nightlife", "Nightlife and Entertainment")]

/-- `extract_chunk_title`: first suitable line of the chunk's first three
lines, else a canned title from `category_titles`
(`dict.get(category, 'Travel Information')`). -/
def extract_chunk_title (chunk : String) (category : String) : String :=
  let lines := ((pySplitNl chunk).take 3).map pyStrip
  match lines.find? (fun line =>
      line != "" && pyLen line < 100 && !pyEndsWith line ".") with
  | some line => line
  | none =>
    match (category_titles.find? (fun p => p.1 == category)) with
    | some p => p.2
    | none => "Travel Information"

/-- Number of keywords of a category found (as substrings) in the
lower-cased chunk: `sum(1 for keyword in keywords if keyword in chunk_lower)`. -/
def keywordCount (keywords : List String) (chunk_lower : String) : Nat :=
  keywords.countP (fun k => isSub k chunk_lower)

/-- The first category of `travel_keywords` whose keyword count in the chunk
is ≥ 2 (the Python loop `break`s after the first match), with that count. -/
def firstMatchingCategory (chunk_lower : String) : Option (String × Nat) :=
  travel_keywords.findSome? (fun p =>
    let c := keywordCount p.2 chunk_lower
    if 2 ≤ c then some (p.1, c) else none)

/-- The body of the `for chunk in chunks` loop of
`extract_travel_specific_sections`: at most one Section per chunk. -/
def travelChunkSection (filename : String) (chunk : String) : Option Sec :=
  if pyLen (pyStrip chunk) < 150 then none
  else
    match firstMatchingCategory (pyLower chunk) with
    | none => none
    | some (cat, c) =>
      some { document := filename,
             page_number := 1,  -- the source hard-codes `'page_number': 1`
             section_title := extract_chunk_title chunk cat,
             content := pyStrip chunk,
             word_count := (pySplitWs chunk).length,
             relevance_score := none,
             category := some cat,
             keyword_count := some c }

/-- `extract_travel_specific_sections(full_text, filename)`. -/
def extract_travel_specific_sections (full_text filename : String) : List Sec :=
  (reSplitBlank full_text).filterMap (travelChunkSection filename)

/-! ## Page-based fallback segmentation (`create_page_based_sections`) -/

/-- `re.sub(r'[^\w\s-]', '', line)` keeps word characters (ASCII fragment of
`\w`), whitespace and hyphens. -/
def pyIsWordChar (c : Char) : Bool := c.isAlpha || c.isDigit || c == '_'

/-- `re.sub(r'[^\w\s-]', '', s)`. -/
def stripNonWord (s : String) : String :=
  String.mk (s.data.filter (fun c => pyIsWordChar c || pyIsSpace c || c == '-'))

/-- The per-line test of `extract_page_title`: stripped line is nonempty,
`5 < len(line) < 100`, does not end with a period, and starts with an
uppercase letter or the (mojibake) bullet `'â€¢'`. -/
def pageTitleLineOk (line : String) : Bool :=
  line != "" &&
  (5 < pyLen line && pyLen line < 100) &&
  !pyEndsWith line "." &&
  ((match line.data with
    | [] => false
    | c :: _ => c.isUpper) || pyStartsWith line "â€¢")

/-- The loop of `extract_page_title` over the first 10 lines: a passing line
is cleaned; the cleaned title is returned only when its length exceeds 10,
otherwise the scan continues with later lines. -/
def pageTitleScan : List String → Option String
  | [] => none
  | raw :: rest =>
    let line := pyStrip raw
    if pageTitleLineOk line then
      if 10 < pyLen (pyStrip (stripNonWord line)) then
        some (pyStrip (stripNonWord line))
      else pageTitleScan rest
    else pageTitleScan rest

/-- `extract_page_title(content)`: `None` becomes `none`. -/
def extract_page_title (content : String) : Option String :=
  pageTitleScan ((pySplitNl content).take 10)

/-- Builds the section record appended for one qualifying page inside the
`create_page_based_sections` loop. -/
def page_section (filename : String) (p : Page) : Sec :=
  let content := pyStrip p.text
  let title0 := match extract_page_title content with
    | some t => t
    | none => ""
  let title := if title0 == "" then
      "Page " ++ toString p.page_number ++ " Content"
    else title0
  { document := filename,
    page_number := p.page_number,
    section_title := title,
    content := content,
    word_count := (pySplitWs content).length,
    relevance_score := none,
    category := none,
    keyword_count := none }

/-- `create_page_based_sections(pages, filename)`: the loop skips pages whose
stripped text is shorter than 100 characters (`continue`). -/
def create_page_based_sections (pages : List Page) (filename : String) :
    List Sec :=
  match pages with
  | [] => []
  | p :: rest =>
    if pyLen (pyStrip p.text) < 100 then create_page_based_sections rest filename
    else page_section filename p :: create_page_based_sections rest filename

/-! ## Section filter/deduplicator (`deduplicate_and_filter_sections`) -/

/-- The dedup key: `hash(frozenset(section['content'].lower().split()[:50]))`.
The frozenset of the first 50 lower-cased words is modelled as a `Finset`;
Python's `hash` is modelled as injective on frozensets. -/
def contentKey (s : Sec) : Finset String :=
  ((pySplitWs (pyLower s.content)).take 50).toFinset

/-- The dedup loop: keep a section iff its key was not seen before
(`seen_content` is a Python `set`; modelled as the list of inserted keys,
membership being what the model uses it for). -/
def dedupGo (seen : List (Finset String)) : List Sec → List Sec
  | [] => []
  | s :: rest =>
    if contentKey s ∈ seen then dedupGo seen rest
    else s :: dedupGo (contentKey s :: seen) rest

/-- `deduplicate_and_filter_sections(sections)`: dedup by content key,
then keep sections with `word_count >= 50`. -/
def deduplicate_and_filter_sections (sections : List Sec) : List Sec :=
  (dedupGo [] sections).filter (fun s => 50 ≤ s.word_count)

/-! ## Relevance scoring (`calculate_relevance_scores`, `simple_keyword_score`) -/

/-- The `query_parts` list built at the top of `calculate_relevance_scores`
from substring tests on the lower-cased job and persona strings. -/
def build_query_parts (persona job : String) : List String :=
  let job_lower := pyLower job
  let persona_lower := pyLower persona
  (if isSub "college friends" job_lower || isSub "group" job_lower then
     ["group", "friends", "college", "young", "budget", "fun", "activities"]
   else []) ++
  (if isSub "trip" job_lower || isSub "travel" job_lower then
     ["travel", "trip", "plan", "itinerary", "destination"]
   else []) ++
  (if isSub "4 days" job_lower || isSub "days" job_lower then
     ["short", "quick", "weekend", "brief"]
   else []) ++
  (if isSub "travel planner" persona_lower then
     ["plan", "organize", "schedule", "itinerary", "logistics"]
   else [])

/-- `simple_keyword_score(content, keywords)`: one point per keyword occurring
(as a substring, Python `in`) in the lower-cased content, normalized by
`max(len(content.split()), 1)`. -/
def simple_keyword_score (content : String) (keywords : List String) : ℚ :=
  let content_lower := pyLower content
  (keywords.countP (fun k => isSub (pyLower k) content_lower) : ℚ) /
    (max (pySplitWs content).length 1 : ℚ)

/-- The validity gate of `calculate_relevance_scores`: a section enters the
TF-IDF corpus iff its content is longer than 50 characters after stripping
and preprocessing yields a non-empty string. -/
def validForScoring (preprocess : String → String) (s : Sec) : Bool :=
  50 < pyLen (pyStrip s.content) && preprocess s.content != ""

/-- In-place score assignment of the TF-IDF success path: the i-th section
passing the gate receives the i-th similarity; afterwards the
`if 'relevance_score' not in section` loop assigns `0.0` to every section
still lacking the key (one already carrying a score would keep it).  The
`[]` sub-case of the gate-passing branch is unreachable under the length
guard of `calculate_relevance_scores` (Python would raise `IndexError`
there, caught by the same `try`). -/
def assignScores (pred : Sec → Bool) (sims : List ℚ) : List Sec → List Sec
  | [] => []
  | s :: rest =>
    if pred s then
      match sims with
      | q :: qs => { s with relevance_score := some q } :: assignScores pred qs rest
      | [] => { s with relevance_score := some 0 } :: assignScores pred [] rest
    else
      (if s.relevance_score.isNone then { s with relevance_score := some 0 }
       else s) :: assignScores pred sims rest

/-- The TF-IDF corpus (`documents`) of `calculate_relevance_scores`: the
preprocessed contents of the sections passing the validity gate. -/
def scoringDocs (preprocess : String → String) (sections : List Sec) :
    List String :=
  (sections.filter (validForScoring preprocess)).map (fun s => preprocess s.content)

/-- The raw query string `' '.join(query_parts + [persona, job])`. -/
def scoringQuery (persona job : String) : String :=
  " ".intercalate (build_query_parts persona job ++ [persona, job])

/-- The keyword fallback of the `except` branch: every section is assigned
`simple_keyword_score` over `query_parts`. -/
def keywordFallback (sections : List Sec) (persona job : String) : List Sec :=
  sections.map (fun s =>
    { s with
      relevance_score := some
        (simple_keyword_score s.content (build_query_parts persona job)) })

/-- `calculate_relevance_scores(sections, persona, job)`.

`preprocess` stands for `self.preprocess_text` (which delegates to the NLTK
tokenizer/stemmer/stopword collaborators); `tfidf` stands for the
scikit-learn TF-IDF + cosine-similarity computation of the `try` block,
taking the corpus (without the query) and the processed query and returning
`none` when the vector-space construction raises.  A returned similarity
list shorter than the corpus would make the Python indexing raise
`IndexError` inside the same `try`, which the `except` turns into the
keyword fallback; longer lists have their tail ignored.  When the corpus is
empty the source returns the input list unchanged — without assigning any
scores. -/
def calculate_relevance_scores (preprocess : String → String)
    (tfidf : List String → String → Option (List ℚ))
    (sections : List Sec) (persona job : String) : List Sec :=
  if (scoringDocs preprocess sections).isEmpty then sections
  else
    match tfidf (scoringDocs preprocess sections)
        (preprocess (scoringQuery persona job)) with
    | some sims =>
      if (scoringDocs preprocess sections).length ≤ sims.length then
        assignScores (validForScoring preprocess) sims sections
      else keywordFallback sections persona job
    | none => keywordFallback sections persona job

/-! ## Ranker (`rank_sections`) -/

/-- The sort key `x['relevance_score']` of `rank_sections`.  The source only
ever sorts sections that already carry a score (Python would raise a
`KeyError` otherwise); an absent score is mapped to 0 to keep the model
total. -/
def scoreOf (s : Sec) : ℚ := s.relevance_score.getD 0

/-- Boolean test "relevance score equals `q`" (used to state stability). -/
def scoreEq (q : ℚ) (s : Sec) : Bool := scoreOf s == q

/-- The pre-sort filter of `rank_sections`:
`len(s['content'].strip()) > 100`. -/
def rank_keep (s : Sec) : Bool := 100 < pyLen (pyStrip s.content)

/-- Stable descending insertion: a section passes an existing element only
when that element's score is strictly greater, so equal scores keep their
original relative order — exactly the guarantee of Python's stable
`sorted(..., reverse=True)`. -/
def insertDesc (s : Sec) : List Sec → List Sec
  | [] => [s]
  | t :: ts => if scoreOf s < scoreOf t then t :: insertDesc s ts
      else s :: t :: ts

/-- Stable sort by relevance score, descending (extensionally equal to
Python's stable `sorted(valid_sections, key=..., reverse=True)`). -/
def sortByScoreDesc : List Sec → List Sec
  | [] => []
  | s :: rest => insertDesc s (sortByScoreDesc rest)

/-- `rank_sections(sections)`. -/
def rank_sections (sections : List Sec) : List Sec :=
  sortByScoreDesc (sections.filter rank_keep)

/-! ## Subsection refiner (`extract_subsections`)

`sent_tokenize` (NLTK) is an external collaborator, passed as a function
parameter. -/

/-- The first accumulation loop of `extract_subsections`: keep stripped
sentences longer than 20 characters, tracking the accumulated word count;
stop once the word count exceeds 150 or 5 sentences are kept (the check
runs only after a sentence is kept, as in the source). -/
def refineLoop (acc : List String) (wc : Nat) : List String → List String × Nat
  | [] => (acc, wc)
  | raw :: rest =>
    let sentence := pyStrip raw
    if sentence != "" && 20 < pyLen sentence then
      let acc' := acc ++ [sentence]
      let wc' := wc + (pySplitWs sentence).length
      if 150 < wc' || 5 ≤ acc'.length then (acc', wc')
      else refineLoop acc' wc' rest
    else refineLoop acc wc rest

/-- The "add more sentences if too short" loop: append further stripped
non-empty sentences (each preceded by a space) until the text exceeds 200
characters. -/
def backfill (t : String) : List String → String
  | [] => t
  | raw :: rest =>
    let sentence := pyStrip raw
    if sentence != "" then
      let t' := t ++ " " ++ sentence
      if 200 < pyLen t' then t'
      else backfill t' rest
    else backfill t rest

/-- The per-section body of `extract_subsections`. -/
def refineSection (sent_tokenize : String → List String) (s : Sec) : Subsec :=
  let sentences := sent_tokenize s.content
  let refined := (refineLoop [] 0 sentences).1
  let refined_text := " ".intercalate refined
  let refined_text :=
    if pyLen refined_text < 100 && refined.length < sentences.length then
      backfill refined_text (sentences.drop refined.length)
    else refined_text
  { document := s.document,
    page_number := s.page_number,
    section_title := s.section_title,
    refined_text := pyTake 500 refined_text,
    relevance_score := s.relevance_score }

/-- `extract_subsections(sections, top_n)`. -/
def extract_subsections (sent_tokenize : String → List String)
    (sections : List Sec) (top_n : Nat) : List Subsec :=
  (sections.take top_n).map (refineSection sent_tokenize)

/-! ## Output assembly and input validation (`process_documents`,
`validate_pdf_files`) -/

/-- Filename cleanup `.replace(' (1)', '')` applied in the output dict. -/
def cleanFilename (s : String) : String := s.replace " (1)" ""

/-- The `extracted_sections` list comprehension of `process_documents`:
the top five ranked sections with `importance_rank = idx + 1`. -/
def assemble_extracted_sections (ranked_sections : List Sec) :
    List ExtractedSectionEntry :=
  (ranked_sections.take 5).enum.map (fun p =>
    { document := cleanFilename p.2.document,
      section_title := p.2.section_title,
      importance_rank := p.1 + 1,
      page_number := p.2.page_number })

/-- The only input validation on the processing path: `process_documents`
raises `ValueError` iff the glob found no PDF files (there is no upper-bound
check there). -/
def process_documents_pdf_check (pdf_files : List String) :
    Except String (List String) :=
  if pdf_files.isEmpty then
    Except.error "No PDF files found in input directory"
  else Except.ok pdf_files

/-- `validate_pdf_files` from `utils/utils.py`: rejects an empty list and
more than 10 files.  (The oversized-file scan only prints a warning and does
not affect the result; no caller of this helper exists in the repository.) -/
def validate_pdf_files (pdf_files : List String) : Except String (List String) :=
  if pdf_files.isEmpty then
    Except.error "No PDF files found in input directory"
  else if 10 < pdf_files.length then
    Except.error ("Too many PDF files (" ++ toString pdf_files.length ++
      "). Maximum is 10.")
  else Except.ok pdf_files

/-! ## C10: the keyword-category pass always reports page 1 -/

/-- C10: every Section emitted by the secondary keyword-category pass
(`extract_travel_specific_sections`) has `page_number = 1`, regardless of
which page of the document the matching chunk actually came from, so any
output record derived from such a section reports page 1. -/
theorem extract_travel_specific_sections_page_one
    (full_text filename : String) (s : Sec)
    (h : s ∈ extract_travel_specific_sections full_text filename) :
    s.page_number = 1 := by
  simp only [extract_travel_specific_sections, List.mem_filterMap] at h
  obtain ⟨chunk, -, hc⟩ := h
  unfold travelChunkSection at hc
  split at hc
  · exact absurd hc (by simp)
  · split at hc
    · exact absurd hc (by simp)
    · simp only [Option.some.injEq] at hc
      subst hc
      rfl

/-- A chunk on which the keyword-category pass fires (three keywords of the
"accommodation" category, stripped length ≥ 150). -/
def c10Text : String :=
  "Hotels and lodging options abound for visitors seeking comfortable accommodation near the town center, with simple booking desks and friendly staff available around every corner of the old quarter."

/-- The (unique) section the keyword-category pass emits for `c10Text`. -/
def c10Sec : Sec :=
  { document := "d.pdf",
    page_number := 1,
    section_title := "Hotels and Accommodation",
    content := c10Text,
    word_count := 29,
    relevance_score := none,
    category := some "accommodation",
    keyword_count := some 3 }

theorem extract_travel_specific_sections_page_one_witness :
    c10Sec.page_number = 1 :=
  extract_travel_specific_sections_page_one c10Text "d.pdf" c10Sec (by decide)

/-! ## C3: the refined excerpt never exceeds 500 characters -/

/-- C3: for every sentence splitter, every input list and every `top_n`, the
`refined_text` of each Subsection produced by `extract_subsections` has
length at most 500 characters (the `[:500]` cap). -/
theorem extract_subsections_refined_len_le
    (sent_tokenize : String → List String) (sections : List Sec) (top_n : Nat)
    (sub : Subsec) (h : sub ∈ extract_subsections sent_tokenize sections top_n) :
    pyLen sub.refined_text ≤ 500 := by
  simp only [extract_subsections, List.mem_map] at h
  obtain ⟨s, -, rfl⟩ := h
  show ((pyTake 500 _).data).length ≤ 500
  simp only [pyTake]
  exact le_trans (Nat.le_of_eq (List.length_take _ _)) (min_le_left _ _)

def c3Body : String := "This sentence is surely longer than twenty chars."

def c3Sec : Sec :=
  { document := "d.pdf", page_number := 3, section_title := "T",
    content := c3Body, word_count := 8, relevance_score := some 0 }

def c3Sub : Subsec :=
  { document := "d.pdf", page_number := 3, section_title := "T",
    refined_text := c3Body, relevance_score := some 0 }

theorem extract_subsections_refined_len_le_witness :
    pyLen c3Sub.refined_text ≤ 500 :=
  extract_subsections_refined_len_le (fun s => [s]) [c3Sec] 5 c3Sub (by decide)

/-! ## C2: importance ranks are the dense sequence 1..N -/

theorem enumFrom_map_rank (l : List Sec) (k : Nat) :
    (List.enumFrom k l).map (fun p => p.1 + 1) = List.range' (k + 1) l.length := by
  induction l generalizing k with
  | nil => rfl
  | cons x xs ih =>
    simp only [List.enumFrom, List.map_cons, List.length_cons, List.range'_succ]
    exact congrArg _ (ih (k + 1))

/-- C2: in the assembled output, the `importance_rank` values of the
`extracted_sections` list are exactly `1, 2, ..., N` where `N` is the number
of entries emitted (no gaps, no repeats). -/
theorem assemble_importance_ranks_dense (ranked_sections : List Sec) :
    (assemble_extracted_sections ranked_sections).map
        ExtractedSectionEntry.importance_rank
      = List.range' 1 (assemble_extracted_sections ranked_sections).length := by
  have h := enumFrom_map_rank (ranked_sections.take 5) 0
  simpa [assemble_extracted_sections, List.map_map, List.enum,
    Function.comp] using h

/-! ## C6: input validation on the processing path -/

def elevenPdfs : List String :=
  ["f01.pdf", "f02.pdf", "f03.pdf", "f04.pdf", "f05.pdf", "f06.pdf",
   "f07.pdf", "f08.pdf", "f09.pdf", "f10.pdf", "f11.pdf"]

/-- C6 counterexample: a directory with eleven PDF files passes the only
validation on the processing path (`process_documents` checks `not pdf_files`
and nothing else), so the run does not abort — contradicting the claim that
more than 10 PDFs is fatal. -/
theorem process_documents_accepts_eleven_pdfs :
    elevenPdfs.length = 11 ∧
      process_documents_pdf_check elevenPdfs = Except.ok elevenPdfs := by
  exact ⟨rfl, rfl⟩

/-- C6 (amended): `process_documents` aborts exactly when there are zero PDF
files; the standalone helper `validate_pdf_files` (which no code in the
repository calls) additionally rejects more than 10 files. -/
theorem pdf_validation_characterization (pdf_files : List String) :
    (process_documents_pdf_check pdf_files).isOk = !pdf_files.isEmpty ∧
      (validate_pdf_files pdf_files).isOk =
        (!pdf_files.isEmpty && decide (pdf_files.length ≤ 10)) := by
  constructor
  · unfold process_documents_pdf_check
    by_cases h : pdf_files.isEmpty <;> simp [h, Except.isOk, Except.toBool]
  · unfold validate_pdf_files
    by_cases h : pdf_files.isEmpty
    · simp [h, Except.isOk, Except.toBool]
    · by_cases h2 : 10 < pdf_files.length
      · simp only [if_neg h, if_pos h2, Except.isOk, Except.toBool, h,
          Bool.not_false]
        simp [h2, Nat.not_le.mpr h2]
      · simp only [if_neg h, if_neg h2, Except.isOk, Except.toBool, h]
        simp [Nat.not_lt.mp h2]

/-! ## C5: the page-based fallback -/

/-- C5 counterexample: a document page whose stripped text is shorter than
100 characters yields no Section at all — the fallback does not produce
"exactly one Section per page", because `create_page_based_sections` skips
low-content pages (`if len(content) < 100: continue`). -/
theorem create_page_based_sections_skips_short_page :
    create_page_based_sections [{ page_number := 1, text := "short text" }]
      "doc.pdf" = [] := by decide

theorem page_section_content_ne (filename : String) (p : Page)
    (h : ¬ pyLen (pyStrip p.text) < 100) :
    ((page_section filename p).content != "") = true := by
  have hc : (page_section filename p).content = pyStrip p.text := rfl
  rw [hc, bne_iff_ne, ne_eq]
  intro he
  apply h
  rw [he]
  simp [pyLen]

/-- C5 (amended): the fallback produces exactly one Section per page whose
stripped text is at least 100 characters long (pages with less content are
skipped), each built by `page_section` — non-empty stripped text as content,
titled from the first title-like line of the page or `"Page N Content"` when
none is found. -/
theorem create_page_based_sections_one_per_qualifying_page
    (pages : List Page) (filename : String) :
    create_page_based_sections pages filename
        = (pages.filter (fun p => 100 ≤ pyLen (pyStrip p.text))).map
            (page_section filename) ∧
      (create_page_based_sections pages filename).all
          (fun s => s.content != "") = true := by
  induction pages with
  | nil => exact ⟨rfl, rfl⟩
  | cons p rest ih =>
    by_cases h : pyLen (pyStrip p.text) < 100
    · have hf : ¬ 100 ≤ pyLen (pyStrip p.text) := Nat.not_le.mpr h
      constructor
      · rw [List.filter_cons]
        simp only [create_page_based_sections, if_pos h]
        rw [if_neg (by simpa using hf)]
        exact ih.1
      · simp only [create_page_based_sections, if_pos h]
        exact ih.2
    · have ht : 100 ≤ pyLen (pyStrip p.text) := Nat.not_lt.mp h
      constructor
      · rw [List.filter_cons]
        simp only [create_page_based_sections, if_neg h]
        rw [if_pos (by simpa using ht), List.map_cons]
        exact congrArg _ ih.1
      · simp only [create_page_based_sections, if_neg h, List.all_cons]
        exact (Bool.and_eq_true _ _).mpr
          ⟨page_section_content_ne filename p h, ih.2⟩

/-! ## C7: the filter/deduplicator is idempotent -/

theorem dedupGo_keys (seen : List (Finset String)) (l : List Sec) :
    ((dedupGo seen l).map contentKey).Nodup ∧
      ∀ s ∈ dedupGo seen l, contentKey s ∉ seen := by
  induction l generalizing seen with
  | nil => simp [dedupGo]
  | cons s rest ih =>
    by_cases h : contentKey s ∈ seen
    · simp only [dedupGo, if_pos h]
      exact ih seen
    · simp only [dedupGo, if_neg h, List.map_cons, List.nodup_cons]
      refine ⟨⟨?_, (ih (contentKey s :: seen)).1⟩, ?_⟩
      · intro hmem
        obtain ⟨t, ht, he⟩ := List.mem_map.mp hmem
        exact (ih (contentKey s :: seen)).2 t ht (he ▸ List.mem_cons_self _ _)
      · intro t ht
        rcases List.mem_cons.mp ht with rfl | h2
        · exact h
        · intro hmem
          exact (ih (contentKey s :: seen)).2 t h2 (List.mem_cons_of_mem _ hmem)

theorem dedupGo_fixed {seen : List (Finset String)} {l : List Sec}
    (hn : (l.map contentKey).Nodup) (hs : ∀ s ∈ l, contentKey s ∉ seen) :
    dedupGo seen l = l := by
  induction l generalizing seen with
  | nil => rfl
  | cons s rest ih =>
    have h0 : contentKey s ∉ seen := hs s (List.mem_cons_self _ _)
    rw [List.map_cons, List.nodup_cons] at hn
    simp only [dedupGo, if_neg h0]
    refine congrArg _ (ih hn.2 ?_)
    intro t ht hmem
    rcases List.mem_cons.mp hmem with h1 | h2
    · exact hn.1 (h1 ▸ List.mem_map_of_mem contentKey ht)
    · exact hs t (List.mem_cons_of_mem _ ht) h2

theorem filter_self_idem (p : Sec → Bool) (l : List Sec) :
    (l.filter p).filter p = l.filter p := by
  induction l with
  | nil => rfl
  | cons s rest ih =>
    by_cases h : p s
    · simp only [List.filter_cons, if_pos h]
      exact congrArg _ ih
    · simp only [List.filter_cons, if_neg h]
      exact ih

/-- C7: the section filter/deduplicator is idempotent — applying
`deduplicate_and_filter_sections` to its own output yields the same list as
applying it once. -/
theorem deduplicate_and_filter_sections_idempotent (sections : List Sec) :
    deduplicate_and_filter_sections (deduplicate_and_filter_sections sections)
      = deduplicate_and_filter_sections sections := by
  unfold deduplicate_and_filter_sections
  have hnodup : (((dedupGo [] sections).filter
      (fun s => 50 ≤ s.word_count)).map contentKey).Nodup :=
    ((List.filter_sublist _).map contentKey).nodup (dedupGo_keys [] sections).1
  rw [dedupGo_fixed hnodup (by simp)]
  exact filter_self_idem _ _

/-! ## C1: ranking is a stable descending sort -/

/-- The ordering "score of `a` is at least score of `b`" (the relation in
which `rank_sections` output is sorted). -/
def scoreGE (a b : Sec) : Prop := scoreOf b ≤ scoreOf a

theorem mem_insertDesc {s t : Sec} {l : List Sec} :
    t ∈ insertDesc s l ↔ t = s ∨ t ∈ l := by
  induction l with
  | nil => simp [insertDesc]
  | cons u us ih =>
    simp only [insertDesc]
    split
    · simp only [List.mem_cons, ih]
      tauto
    · simp only [List.mem_cons]

theorem pairwise_insertDesc {s : Sec} {l : List Sec}
    (h : l.Pairwise scoreGE) : (insertDesc s l).Pairwise scoreGE := by
  induction l with
  | nil => simp [insertDesc]
  | cons u us ih =>
    rcases List.pairwise_cons.mp h with ⟨hu, hus⟩
    simp only [insertDesc]
    split
    · rename_i hlt
      refine List.pairwise_cons.mpr ⟨?_, ih hus⟩
      intro t ht
      rcases mem_insertDesc.mp ht with rfl | htus
      · exact le_of_lt hlt
      · exact hu t htus
    · rename_i hge
      rw [not_lt] at hge
      refine List.pairwise_cons.mpr ⟨?_, h⟩
      intro t ht
      rcases List.mem_cons.mp ht with rfl | htus
      · exact hge
      · exact le_trans (hu t htus) hge

theorem filter_insertDesc (q : ℚ) (s : Sec) (l : List Sec) :
    (insertDesc s l).filter (scoreEq q)
      = if scoreEq q s then s :: l.filter (scoreEq q)
        else l.filter (scoreEq q) := by
  induction l with
  | nil =>
    by_cases hs : scoreEq q s <;> simp [insertDesc, List.filter_cons, hs]
  | cons u us ih =>
    simp only [insertDesc]
    split
    · rename_i hlt
      rw [List.filter_cons, List.filter_cons, ih]
      by_cases hs : scoreEq q s
      · have hsq : scoreOf s = q := by simpa [scoreEq] using hs
        have hu : scoreEq q u = false := by
          simp only [scoreEq, beq_eq_false_iff_ne, ne_eq]
          intro he
          rw [he, hsq] at hlt
          exact lt_irrefl q hlt
        simp [hs, hu]
      · simp [hs]
    · rw [List.filter_cons]

theorem filter_sortByScoreDesc (q : ℚ) (l : List Sec) :
    (sortByScoreDesc l).filter (scoreEq q) = l.filter (scoreEq q) := by
  induction l with
  | nil => rfl
  | cons s rest ih =>
    rw [sortByScoreDesc, filter_insertDesc, ih, List.filter_cons]

theorem pairwise_sortByScoreDesc (l : List Sec) :
    (sortByScoreDesc l).Pairwise scoreGE := by
  induction l with
  | nil => simp [sortByScoreDesc]
  | cons s rest ih => exact pairwise_insertDesc ih

/-- C1: for every list of scored sections, the ranker's output is ordered by
relevance score descending (`scoreGE` holds for every pair, hence for every
adjacent pair), and for every score value the sections carrying that score
appear in exactly their original discovery order (the stable-sort property,
stated as: filtering the output by any fixed score equals filtering the
ranker's valid input by that score). -/
theorem rank_sections_sorted_stable (sections : List Sec)
    (h : ∀ s ∈ sections, s.relevance_score.isSome = true) :
    (rank_sections sections).Pairwise scoreGE ∧
      ∀ q : ℚ, (rank_sections sections).filter (scoreEq q)
        = (sections.filter rank_keep).filter (scoreEq q) :=
  ⟨pairwise_sortByScoreDesc _, fun q => filter_sortByScoreDesc q _⟩

def c1SecA : Sec :=
  { document := "a.pdf", page_number := 1, section_title := "A",
    content := String.mk (List.replicate 110 'x'), word_count := 1,
    relevance_score := some 2 }

def c1SecB : Sec :=
  { document := "b.pdf", page_number := 2, section_title := "B",
    content := String.mk (List.replicate 120 'y'), word_count := 1,
    relevance_score := some 3 }

def c1SecC : Sec :=
  { document := "c.pdf", page_number := 3, section_title := "C",
    content := String.mk (List.replicate 130 'z'), word_count := 1,
    relevance_score := some 2 }

def c1List : List Sec := [c1SecA, c1SecB, c1SecC]

theorem rank_sections_sorted_stable_witness :
    (rank_sections c1List).Pairwise scoreGE ∧
      (rank_sections c1List).filter (scoreEq 2)
        = (c1List.filter rank_keep).filter (scoreEq 2) :=
  ⟨(rank_sections_sorted_stable c1List (by decide)).1,
   (rank_sections_sorted_stable c1List (by decide)).2 2⟩

/-! ## C4: score assignment in `calculate_relevance_scores` -/

theorem assignScores_all_some (pred : Sec → Bool) (sims : List ℚ)
    (l : List Sec) :
    ∀ s ∈ assignScores pred sims l, s.relevance_score.isSome = true := by
  induction l generalizing sims with
  | nil => simp [assignScores]
  | cons t rest ih =>
    intro s hs
    by_cases hp : pred t
    · cases sims with
      | nil =>
        simp only [assignScores, if_pos hp] at hs
        rcases List.mem_cons.mp hs with rfl | h2
        · rfl
        · exact ih [] s h2
      | cons q qs =>
        simp only [assignScores, if_pos hp] at hs
        rcases List.mem_cons.mp hs with rfl | h2
        · rfl
        · exact ih qs s h2
    · simp only [assignScores, if_neg hp] at hs
      rcases List.mem_cons.mp hs with rfl | h2
      · cases hr : t.relevance_score with
        | none => simp [hr]
        | some q => simp [hr]
      · exact ih sims s h2

/-- `validForScoring` reads only the content, so rescoring a section does not
change it. -/
theorem validForScoring_set_score (preprocess : String → String) (t : Sec)
    (x : Option ℚ) :
    validForScoring preprocess { t with relevance_score := x }
      = validForScoring preprocess t := rfl

theorem assignScores_unscored_zero (preprocess : String → String)
    (sims : List ℚ) (l : List Sec)
    (hl : ∀ s ∈ l, s.relevance_score = none) :
    ∀ s ∈ assignScores (validForScoring preprocess) sims l,
      validForScoring preprocess s = false → s.relevance_score = some 0 := by
  induction l generalizing sims with
  | nil => simp [assignScores]
  | cons t rest ih =>
    have hrest : ∀ s ∈ rest, s.relevance_score = none :=
      fun s hs => hl s (List.mem_cons_of_mem _ hs)
    intro s hs hf
    by_cases hp : validForScoring preprocess t
    · cases sims with
      | nil =>
        simp only [assignScores, if_pos hp] at hs
        rcases List.mem_cons.mp hs with rfl | h2
        · rw [validForScoring_set_score, hp] at hf
        · exact ih [] hrest s h2 hf
      | cons q qs =>
        simp only [assignScores, if_pos hp] at hs
        rcases List.mem_cons.mp hs with rfl | h2
        · rw [validForScoring_set_score, hp] at hf
          simp at hf
        · exact ih qs hrest s h2 hf
    · have ht0 : t.relevance_score = none := hl t (List.mem_cons_self _ _)
      simp only [assignScores, if_neg hp, ht0, Option.isNone_none, if_true] at hs
      rcases List.mem_cons.mp hs with rfl | h2
      · rfl
      · exact ih sims hrest s h2 hf

theorem scoringDocs_ne_nil (preprocess : String → String) {sections : List Sec}
    {t : Sec} (ht : t ∈ sections) (hv : validForScoring preprocess t = true) :
    (scoringDocs preprocess sections).isEmpty = false := by
  have hmem : preprocess t.content ∈ scoringDocs preprocess sections :=
    List.mem_map_of_mem _ (List.mem_filter.mpr ⟨ht, hv⟩)
  cases he : scoringDocs preprocess sections with
  | nil =>
    rw [he] at hmem
    cases hmem
  | cons a l => rfl

/-- C4 (amended): provided at least one input section passes the validity
gate (stripped content longer than 50 characters and non-empty preprocessed
text), `calculate_relevance_scores` returns (it never raises — the TF-IDF
failure modes are caught and fall back to keyword scoring) with every
section in its output carrying a relevance score; and when the TF-IDF
computation succeeds, every section that failed the gate is assigned `0.0`.
Without such a section the source returns the input unchanged, scoreless
(see the counterexample). -/
theorem calculate_relevance_scores_scores_all
    (preprocess : String → String)
    (tfidf : List String → String → Option (List ℚ))
    (sections : List Sec) (persona job : String)
    (hvalid : ∃ t ∈ sections, validForScoring preprocess t = true) :
    (∀ s ∈ calculate_relevance_scores preprocess tfidf sections persona job,
        s.relevance_score.isSome = true) ∧
      ((∀ s ∈ sections, s.relevance_score = none) →
        ∀ sims, tfidf (scoringDocs preprocess sections)
            (preprocess (scoringQuery persona job)) = some sims →
        (scoringDocs preprocess sections).length ≤ sims.length →
        ∀ s ∈ calculate_relevance_scores preprocess tfidf sections persona job,
          validForScoring preprocess s = false →
            s.relevance_score = some 0) := by
  obtain ⟨t, ht, hv⟩ := hvalid
  have hne := scoringDocs_ne_nil preprocess ht hv
  constructor
  · intro s hs
    rw [calculate_relevance_scores, hne] at hs
    simp only [Bool.false_eq_true, if_false] at hs
    cases htf : tfidf (scoringDocs preprocess sections)
        (preprocess (scoringQuery persona job)) with
    | none =>
      rw [htf] at hs
      dsimp only at hs
      simp only [keywordFallback, List.mem_map] at hs
      obtain ⟨u, -, rfl⟩ := hs
      rfl
    | some sims =>
      rw [htf] at hs
      dsimp only at hs
      by_cases hlen : (scoringDocs preprocess sections).length ≤ sims.length
      · rw [if_pos hlen] at hs
        exact assignScores_all_some _ sims sections s hs
      · rw [if_neg hlen] at hs
        simp only [keywordFallback, List.mem_map] at hs
        obtain ⟨u, -, rfl⟩ := hs
        rfl
  · intro hnone sims htf hlen s hs hf
    rw [calculate_relevance_scores, hne] at hs
    simp only [Bool.false_eq_true, if_false] at hs
    rw [htf] at hs
    dsimp only at hs
    rw [if_pos hlen] at hs
    exact assignScores_unscored_zero preprocess sims sections hnone s hs hf

def c4pp : String → String := fun s => s

def c4tf : List String → String → Option (List ℚ) :=
  fun docs _ => some (docs.map (fun _ => 0))

def c4Long : Sec :=
  { document := "d.pdf", page_number := 1, section_title := "L",
    content := String.mk (List.replicate 60 'w'), word_count := 1,
    relevance_score := none }

def c4Out : Sec := { c4Long with relevance_score := some 0 }

theorem calculate_relevance_scores_scores_all_witness :
    c4Out.relevance_score.isSome = true :=
  (calculate_relevance_scores_scores_all c4pp c4tf [c4Long] "Travel Planner"
    "Plan a trip" (by decide)).1 c4Out (by decide)

def c4Tiny : Sec :=
  { document := "d.pdf", page_number := 1, section_title := "T",
    content := "tiny", word_count := 1 }

/-- C4 counterexample: with a single short section (stripped content not
longer than 50 characters — a condition independent of the preprocessing
collaborator) the TF-IDF corpus is empty and `calculate_relevance_scores`
returns the input list unchanged; the returned section carries no
`relevance_score` at all, contradicting the claim that every returned
section carries one (with 0.0 for unscorable ones). -/
theorem calculate_relevance_scores_missing_score_cex :
    calculate_relevance_scores c4pp c4tf [c4Tiny] "Travel Planner"
        "Plan a trip" = [c4Tiny] ∧
      c4Tiny.relevance_score = none :=
  ⟨by decide, rfl⟩

/-! ## C8: keyword-overlap fallback prefers budget/group/friends sections -/

theorem countP_congr_mem {p q : String → Bool} {L : List String}
    (h : ∀ k ∈ L, p k = q k) : L.countP p = L.countP q := by
  induction L with
  | nil => rfl
  | cons a l ih =>
    rw [List.countP_cons, List.countP_cons, h a (List.mem_cons_self _ _),
      ih (fun k hk => h k (List.mem_cons_of_mem _ hk))]

/-- The `query_parts` the scorer builds for persona "Travel Planner" and job
"Plan a trip for college friends" (the job mentions "college friends" and
"trip", not "days"). -/
def travelQueryParts : List String :=
  build_query_parts "Travel Planner" "Plan a trip for college friends"

/-- C8: under the keyword-overlap fallback with persona "Travel Planner" and
job "Plan a trip for college friends", a section containing the literal words
"budget", "group" and "friends" scores strictly higher than an
otherwise-identical section of the same word count containing none of them
("otherwise identical": every other query keyword occurs in one content iff
it occurs in the other). -/
theorem simple_keyword_score_travel_strict (c1 c2 : String)
    (hwc : (pySplitWs c1).length = (pySplitWs c2).length)
    (hb1 : isSub "budget" (pyLower c1) = true)
    (hg1 : isSub "group" (pyLower c1) = true)
    (hf1 : isSub "friends" (pyLower c1) = true)
    (hb2 : isSub "budget" (pyLower c2) = false)
    (hg2 : isSub "group" (pyLower c2) = false)
    (hf2 : isSub "friends" (pyLower c2) = false)
    (hcollege : isSub "college" (pyLower c1) = isSub "college" (pyLower c2))
    (hyoung : isSub "young" (pyLower c1) = isSub "young" (pyLower c2))
    (hfn : isSub "fun" (pyLower c1) = isSub "fun" (pyLower c2))
    (hact : isSub "activities" (pyLower c1) = isSub "activities" (pyLower c2))
    (htravel : isSub "travel" (pyLower c1) = isSub "travel" (pyLower c2))
    (htrip : isSub "trip" (pyLower c1) = isSub "trip" (pyLower c2))
    (hplan : isSub "plan" (pyLower c1) = isSub "plan" (pyLower c2))
    (hitin : isSub "itinerary" (pyLower c1) = isSub "itinerary" (pyLower c2))
    (hdest : isSub "destination" (pyLower c1)
      = isSub "destination" (pyLower c2))
    (horg : isSub "organize" (pyLower c1) = isSub "organize" (pyLower c2))
    (hsch : isSub "schedule" (pyLower c1) = isSub "schedule" (pyLower c2))
    (hlog : isSub "logistics" (pyLower c1) = isSub "logistics" (pyLower c2)) :
    simple_keyword_score c2 travelQueryParts
      < simple_keyword_score c1 travelQueryParts := by
  have hq : travelQueryParts
      = ["group", "friends", "college", "young", "budget", "fun",
         "activities", "travel", "trip", "plan", "itinerary", "destination",
         "plan", "organize", "schedule", "itinerary", "logistics"] := by
    decide
  have hsplit : (["group", "friends", "college", "young", "budget", "fun",
      "activities", "travel", "trip", "plan", "itinerary", "destination",
      "plan", "organize", "schedule", "itinerary", "logistics"] :
        List String).Perm
      (["group", "friends", "budget"] ++
       ["college", "young", "fun", "activities", "travel", "trip", "plan",
        "itinerary", "destination", "plan", "organize", "schedule",
        "itinerary", "logistics"]) := by decide
  simp only [simple_keyword_score]
  rw [hq, hwc, div_lt_div_iff_of_pos_right
    (by exact_mod_cast Nat.lt_of_lt_of_le Nat.zero_lt_one (Nat.le_max_right _ 1)),
    Nat.cast_lt, List.Perm.countP_eq _ hsplit, List.Perm.countP_eq _ hsplit,
    List.countP_append, List.countP_append]
  have eg : pyLower "group" = "group" := rfl
  have ef : pyLower "friends" = "friends" := rfl
  have eb : pyLower "budget" = "budget" := rfl
  have hS1 : List.countP (fun k => isSub (pyLower k) (pyLower c1))
      ["group", "friends", "budget"] = 3 := by
    simp [List.countP_cons, eg, ef, eb, hg1, hf1, hb1]
  have hS2 : List.countP (fun k => isSub (pyLower k) (pyLower c2))
      ["group", "friends", "budget"] = 0 := by
    simp [List.countP_cons, eg, ef, eb, hg2, hf2, hb2]
  have hR : List.countP (fun k => isSub (pyLower k) (pyLower c1))
        ["college", "young", "fun", "activities", "travel", "trip", "plan",
         "itinerary", "destination", "plan", "organize", "schedule",
         "itinerary", "logistics"]
      = List.countP (fun k => isSub (pyLower k) (pyLower c2))
        ["college", "young", "fun", "activities", "travel", "trip", "plan",
         "itinerary", "destination", "plan", "organize", "schedule",
         "itinerary", "logistics"] := by
    apply countP_congr_mem
    intro k hk
    simp only [List.mem_cons, List.not_mem_nil, or_false] at hk
    rcases hk with rfl | rfl | rfl | rfl | rfl | rfl | rfl | rfl | rfl |
      rfl | rfl | rfl | rfl | rfl
    · exact hcollege
    · exact hyoung
    · exact hfn
    · exact hact
    · exact htravel
    · exact htrip
    · exact hplan
    · exact hitin
    · exact hdest
    · exact hplan
    · exact horg
    · exact hsch
    · exact hitin
    · exact hlog
  rw [hS1, hS2, hR]
  omega

theorem simple_keyword_score_travel_strict_witness :
    simple_keyword_score "alpha beta gamma extra" travelQueryParts
      < simple_keyword_score "budget group friends here" travelQueryParts :=
  simple_keyword_score_travel_strict "budget group friends here"
    "alpha beta gamma extra" (by decide) (by decide) (by decide) (by decide)
    (by decide) (by decide) (by decide) (by decide) (by decide) (by decide)
    (by decide) (by decide) (by decide) (by decide) (by decide) (by decide)
    (by decide) (by decide) (by decide)

/-! ## C9: the Paris refiner scenario -/

def parisBody : String :=
  "Paris is beautiful. It has many museums. The food is excellent. Transport is easy."

/-- NLTK `sent_tokenize` (external collaborator) on the Paris body: splits at
the sentence-final periods, yielding the four sentences. -/
def parisTokenize : String → List String := fun _ =>
  ["Paris is beautiful.", "It has many museums.", "The food is excellent.",
   "Transport is easy."]

def parisSec : Sec :=
  { document := "cities.pdf", page_number := 1, section_title := "Paris",
    content := parisBody, word_count := 14, relevance_score := some 1 }

/-- C9 counterexample: the refiner's excerpt for the Paris body is NOT the
first three sentences joined by spaces.  The source's accumulation loop
skips sentences of at most 20 characters ("Paris is beautiful." has 19,
"It has many museums." has 20), keeps only "The food is excellent.", and the
too-short backfill then re-appends sentences starting at index 1 —
duplicating the kept sentence. -/
theorem extract_subsections_paris_cex :
    (extract_subsections parisTokenize [parisSec] 5).map Subsec.refined_text
      ≠ ["Paris is beautiful. It has many museums. The food is excellent."] := by
  decide

/-- C9 (amended): for the Paris body under the code's actual parameters
(sentences of at most 20 characters are skipped; 5-sentence / 150-word caps;
excerpts under 100 characters are backfilled from sentence index
`len(refined_sentences)` until over 200 characters; hard 500-character cap),
the excerpt is "The food is excellent. It has many museums. The food is
excellent. Transport is easy." — within the 500-character cap. -/
theorem extract_subsections_paris_actual :
    (extract_subsections parisTokenize [parisSec] 5).map Subsec.refined_text
        = ["The food is excellent. It has many museums. The food is excellent. Transport is easy."]
      ∧ pyLen "The food is excellent. It has many museums. The food is excellent. Transport is easy."
          ≤ 500 := by
  constructor
  · decide
  · decide
